import Mathlib

/-!
Verification development for the annotated hierarchical pathfinding engine
(ahastar).  The definitions below are shallow embeddings of the C++ sources:

* `AHA.evaluate`, `AHA.getPathRun` embed `aha/AnnotatedHierarchicalAStar.cpp`;
* `AMA.clearance`, `AMA.groundEdge`, `AMA.pathableRun` embed
  `trunk/aha/AnnotatedMapAbstraction.cpp`;
* the `ACA` namespace models the cluster-abstraction operations whose
  implementation file is not part of the source set (only its unit tests are),
  following the specification's description of those operations.
-/

namespace AHA

/-- A search-graph node as used by `AnnotatedHierarchicalAStar::evaluate`:
only its number (`getNum`) matters there. -/
structure SNode where
  num : Nat
deriving DecidableEq

/-- An annotated edge: endpoints (`getFrom`/`getTo`) and the per-capability
clearance table (`getClearance`). -/
structure SEdge where
  src : Nat
  dst : Nat
  clearanceOf : Nat → Nat

/-- The search-object state read by `evaluate`: the edge currently being
traversed (`this->traversing()`, null when none) and the query's capability
and clearance parameters. -/
structure EvalState where
  traversing : Option SEdge
  capability : Nat
  clearance : Nat

/-- Shallow embedding of `AnnotatedHierarchicalAStar::evaluate` from
`aha/AnnotatedHierarchicalAStar.cpp` lines 13-37.  Null pointers are
embedded as `none`. -/
def evaluate (s : EvalState) (n target : Option SNode) : Bool :=
  match n, target with
  | some n, some target =>
    match s.traversing with
    | none => false
    | some e =>
      if n.num ≠ e.dst ∧ n.num ≠ e.src then false
      else if target.num ≠ e.dst ∧ target.num ≠ e.src then false
      else decide (e.clearanceOf s.capability ≥ s.clearance)
  | _, _ => false

/-- Outcome of a `getPath` query: a stitched concrete path, the `NULL`
return, or a process abort (`exit(-1)` / null-pointer dereference). -/
inductive QueryOutcome where
  | ok : List Nat → QueryOutcome
  | nullPath : QueryOutcome
  | aborted : QueryOutcome
deriving DecidableEq

/-- An abstract annotated edge as found by `graph::findAnnotatedEdge`:
its endpoints and its cache key. -/
structure CEdge where
  eid : Nat
  esrc : Nat
  edst : Nat
deriving DecidableEq

/-- Environment a `getPath` call runs in: the result of the abstract A*
search (a list of abstract node ids, `none` on failure), the annotated-edge
finder on the abstract graph, and the path cache. -/
structure QueryEnv where
  absSearch : Option (List Nat)
  findEdge : Nat → Nat → Option CEdge
  cachedPath : Nat → Option (List Nat)

/-- The stitching loop of `AnnotatedHierarchicalAStar::getPath` (lines
70-107): walk the remaining abstract path, append each cached segment
(reversed when stored backwards), eliding the overlapping join node.
The second component records whether `removeStartAndGoalNodesFromAbstractGraph`
runs before the exit: it runs only after the loop completes (line 109);
the `exit(-1)` branches never reach it. -/
def stitch (env : QueryEnv) (acc : List Nat) (cur : Nat) :
    List Nat → QueryOutcome × Bool
  | [] => (QueryOutcome.ok acc, true)
  | nxt :: rest =>
    match env.findEdge cur nxt with
    | none => (QueryOutcome.aborted, false)
    | some e =>
      match env.cachedPath e.eid with
      | none => (QueryOutcome.aborted, false)
      | some seg =>
        let seg := if e.esrc ≠ cur then seg.reverse else seg
        match acc.getLast?, seg with
        | some t, s0 :: srest =>
          if t = s0 then stitch env (acc ++ srest) nxt rest
          else (QueryOutcome.aborted, false)
        | _, _ => (QueryOutcome.aborted, false)

/-- Shallow embedding of the control flow of
`AnnotatedHierarchicalAStar::getPath` (lines 39-113).  Endpoint insertion
has already happened when `absSearch` is consulted; the returned Boolean
records whether endpoint removal was performed on the taken exit path.
When the abstract search fails the function returns `NULL` immediately
(lines 52-53), before the removal call at line 109. -/
def getPathRun (env : QueryEnv) : QueryOutcome × Bool :=
  match env.absSearch with
  | none => (QueryOutcome.nullPath, false)
  | some abspath =>
    match abspath with
    | a :: b :: rest =>
      match env.findEdge a b with
      | none => (QueryOutcome.aborted, false)
      | some e =>
        match env.cachedPath e.eid with
        | none => (QueryOutcome.aborted, false)
        | some seg0 => stitch env seg0 b rest
    | _ => (QueryOutcome.aborted, false)

end AHA

namespace AMA

/-- Shallow embedding of `AnnotatedMapAbstraction::pathable(node*, node*,
int, int)` (lines 155-168).  A node carries its single basic terrain type
(`getTerrainType`) and its clearance table (`getClearance`). -/
structure PNode where
  terrain : Nat
  clearanceOf : Nat → Nat

/-- `pathable` with the embedded `AnnotatedAStar::getPath` call abstracted
into the `search` parameter (its implementation is a separate collaborator).
The second component of the result records whether the search was invoked. -/
def pathableRun (search : PNode → PNode → Nat → Nat → Option (List Nat))
    (nfrom nto : PNode) (terrain agentsize : Nat) : Bool × Bool :=
  if ¬((nfrom.terrain &&& terrain = terrain) ∧ (nto.terrain &&& terrain = terrain)
      ∧ nfrom.clearanceOf nfrom.terrain ≥ agentsize
      ∧ nto.clearanceOf nto.terrain ≥ agentsize) then
    (false, false)
  else
    ((search nfrom nto terrain agentsize).isSome, true)

/-- The terrain grid a map abstraction is built from: `terrain x y = none`
for an obstacle tile (`getNodeFromMap` returns null there), `some t` for a
tile whose node has basic terrain type `t`. -/
structure Grid where
  width : Nat
  height : Nat
  terrain : Nat → Nat → Option Nat

/-- `getNodeFromMap(x, y)`: null outside the map bounds or on an obstacle
tile; otherwise the tile's terrain type, which `annotateMap` copies onto
the node (line 66). -/
def nodeAt (g : Grid) (x y : Nat) : Option Nat :=
  if x < g.width ∧ y < g.height then g.terrain x y else none

/-- Shallow embedding of the clearance computation of
`AnnotatedMapAbstraction::annotateMap` (lines 55-106) for one terrain
subset `s`: the value `n->getClearance(s)` ends up with for the node at
`(x, y)` (0 when there is no node there).  The C++ loop runs over `x`
and `y` in decreasing order, so each tile's three successors are already
computed; the recursion here mirrors that evaluation order. -/
def clearance (g : Grid) (s : Nat) (x y : Nat) : Nat :=
  if _h : x < g.width ∧ y < g.height then
    match g.terrain x y with
    | none => 0
    | some t =>
      if (nodeAt g (x + 1) (y + 1)).isSome ∧ (nodeAt g (x + 1) y).isSome
          ∧ (nodeAt g x (y + 1)).isSome then
        if s &&& t = t then
          min (clearance g s (x + 1) (y + 1))
            (min (clearance g s (x + 1) y) (clearance g s x (y + 1))) + 1
        else 0
      else
        if s &&& t = t then 1 else 0
  else 0
termination_by (g.width - x) + (g.height - y)
decreasing_by all_goals omega

/-- Edge weights occurring in the ground graph: the C++ uses the two double
constants `1.0` (cardinal steps and all edges added by `addMissingEdges`)
and `√2` (diagonal steps in the base map graph). -/
inductive Wt where
  | one : Wt
  | rt2 : Wt
deriving DecidableEq

/-- Two distinct tiles are 4- or 8-neighbors on the grid. -/
def adjacentTiles (x1 y1 x2 y2 : Nat) : Prop :=
  (x1 ≠ x2 ∨ y1 ≠ y2)
    ∧ (x1 - x2) + (x2 - x1) ≤ 1 ∧ (y1 - y2) + (y2 - y1) ≤ 1

instance (x1 y1 x2 y2 : Nat) : Decidable (adjacentTiles x1 y1 x2 y2) := by
  unfold adjacentTiles; infer_instance

/-- The two tiles are diagonal (8- but not 4-) neighbors. -/
def diagonalTiles (x1 y1 x2 y2 : Nat) : Prop :=
  (x1 - x2) + (x2 - x1) = 1 ∧ (y1 - y2) + (y2 - y1) = 1

instance (x1 y1 x2 y2 : Nat) : Decidable (diagonalTiles x1 y1 x2 y2) := by
  unfold diagonalTiles; infer_instance

/-- Modelled from the spec: the base map graph produced by HOG's
`getMapGraph`, which `AnnotatedMapAbstraction` starts from (line 45).
Its edge set is described by the source comment at `addMissingEdges`
(lines 108-115): neighbouring nodes of *different* terrain types do not
get an edge; neighbouring nodes of the same terrain type do, and per the
spec carry weight `1.0` for a cardinal step and `√2` for a diagonal one. -/
def baseEdge (g : Grid) (x1 y1 x2 y2 : Nat) : Option Wt :=
  match nodeAt g x1 y1, nodeAt g x2 y2 with
  | some t1, some t2 =>
    if t1 = t2 ∧ adjacentTiles x1 y1 x2 y2 then
      some (if diagonalTiles x1 y1 x2 y2 then Wt.rt2 else Wt.one)
    else none
  | _, _ => none

/-- The pair `(x2, y2)` is one of the three neighbours
`(x-1, y)`, `(x, y-1)`, `(x-1, y-1)` that `addMissingEdges` (lines
116-144) inspects from `(x1, y1)`, both tiles have nodes, and the base
graph has no edge between them — exactly the condition under which the
method adds a new edge of weight `1.0`. -/
def addedPair (g : Grid) (x1 y1 x2 y2 : Nat) : Prop :=
  (nodeAt g x1 y1).isSome ∧ (nodeAt g x2 y2).isSome
    ∧ ((x2 + 1 = x1 ∧ y2 = y1) ∨ (x2 = x1 ∧ y2 + 1 = y1)
        ∨ (x2 + 1 = x1 ∧ y2 + 1 = y1))
    ∧ baseEdge g x1 y1 x2 y2 = none

instance (g : Grid) (x1 y1 x2 y2 : Nat) : Decidable (addedPair g x1 y1 x2 y2) := by
  unfold addedPair; infer_instance

/-- The ground graph after `addMissingEdges`: the base edge when present,
else the weight-`1.0` edge added between the inspected neighbour pairs. -/
def groundEdge (g : Grid) (x1 y1 x2 y2 : Nat) : Option Wt :=
  match baseEdge g x1 y1 x2 y2 with
  | some w => some w
  | none =>
    if addedPair g x1 y1 x2 y2 ∨ addedPair g x2 y2 x1 y1 then some Wt.one
    else none

/-- A concrete 2×2 test grid with a horizontal terrain boundary: the
bottom row has terrain type 1, the top row terrain type 2. -/
def twoRowGrid : Grid :=
  ⟨2, 2, fun _ y => if y = 1 then some 2 else some 1⟩

/-- A concrete 2×2 test grid of uniform terrain type 1. -/
def flatGrid : Grid :=
  ⟨2, 2, fun _ _ => some 1⟩

end AMA

namespace ACA

/-! ### Cluster decomposition

The implementation (`AnnotatedClusterAbstraction::buildClusters`) is not in
the source set; it is modelled from the spec, and its concrete behaviour on
the test map is pinned down by the unit tests in
`tests/AnnotatedClusterAbstractionTest.cpp`. -/

/-- A cluster: grid position `(i, j)` among clusters and its tile extent. -/
structure Cluster where
  i : Nat
  j : Nat
  width : Nat
  height : Nat
deriving DecidableEq

/-- Modelled from the spec: cluster decomposition (§4.E).  For a `W×H` grid
and cluster size `S > 0`, create `⌈W/S⌉·⌈H/S⌉` clusters in row-major order;
cluster `(i, j)` has `width = min(S, W - i·S)` and
`height = min(S, H - j·S)`. -/
def buildClusters (w h s : Nat) : List Cluster :=
  ((List.range ((h + s - 1) / s)).flatMap fun j =>
    (List.range ((w + s - 1) / s)).map fun i =>
      ⟨i, j, min s (w - i * s), min s (h - j * s)⟩)

/-- Modelled from the spec and tests: the width of the fixed test map
`acmap`.  The test `buildClustersShouldCalculateCorrectClusterSize`
(lines 77-94) asserts cluster widths `{5,4,5,4}` and heights `{5,5,1,1}`
with cluster size 5, which under the decomposition formula forces the map
to be 9 tiles wide and 6 tiles high. -/
def acmapWidth : Nat := 9

/-- Modelled from the spec and tests: the height of the fixed test map
`acmap` (see `acmapWidth`). -/
def acmapHeight : Nat := 6

/-! ### Transition dominance

`AnnotatedClusterAbstraction::findDominantTransition` is not in the source
set; it is modelled from the spec (§4.F, transition dominance pruning) and
constrained by the unit tests (lines 891-999). -/

/-- An inter-cluster abstract edge as inspected by the dominance check:
endpoint node ids, the capability annotation and its clearance. -/
structure DEdge where
  eid : Nat
  src : Nat
  dst : Nat
  cap : Nat
  clr : Nat
deriving DecidableEq

/-- The abstract-graph context for the dominance check: the owning cluster
of each valid abstract node (`none` for an invalid node id) and whether an
edge admissible under a given capability and clearance exists between two
abstract nodes. -/
structure DGraph where
  clusterOf : Nat → Option Nat
  hasEdge : Nat → Nat → Nat → Nat → Bool

/-- Modelled from the spec: edge `a` weakly dominates edge `b` iff
`a.cap ⊆ b.cap`, `a.clr ≥ b.clr`, and an equivalent detour through `a`
connecting `b`'s endpoints under `(b.cap, b.clr)` exists (§4.F). -/
def dominates (g : DGraph) (a b : DEdge) : Bool :=
  (b.cap &&& a.cap = a.cap : Bool) && (b.clr ≤ a.clr : Bool)
    && g.hasEdge b.src a.src b.cap b.clr && g.hasEdge b.dst a.dst b.cap b.clr

/-- The two edges' endpoints lie in matching cluster pairs. -/
def clusterPairMatch (ca1 ca2 cb1 cb2 : Nat) : Bool :=
  (ca1 = cb1 ∧ ca2 = cb2 : Bool) || (ca1 = cb2 ∧ ca2 = cb1 : Bool)

/-- The deterministic tie-break order on inter-cluster edges: lexicographic
over all edge data, so that it is total and antisymmetric. -/
def edgeLe (a b : DEdge) : Bool :=
  decide (a.eid < b.eid ∨ (a.eid = b.eid ∧ (a.src < b.src ∨ (a.src = b.src
    ∧ (a.dst < b.dst ∨ (a.dst = b.dst ∧ (a.cap < b.cap
    ∨ (a.cap = b.cap ∧ a.clr ≤ b.clr))))))))

/-- Modelled from the spec:
`AnnotatedClusterAbstraction::findDominantTransition(e1, e2, &dominant)`.
Null arguments, endpoints with invalid node ids, and non-matching cluster
pairs yield no dominant edge; otherwise the weakly dominant edge is
returned.  The check is symmetric in argument order (§4.F); when the two
edges dominate each other, a deterministic tie-break (the spec leaves the
exact rule open) picks the `edgeLe`-smaller edge. -/
def findDominantTransition (g : DGraph) (e1 e2 : Option DEdge) : Option DEdge :=
  match e1, e2 with
  | some a, some b =>
    match g.clusterOf a.src, g.clusterOf a.dst, g.clusterOf b.src, g.clusterOf b.dst with
    | some ca1, some ca2, some cb1, some cb2 =>
      if clusterPairMatch ca1 ca2 cb1 cb2 then
        match dominates g a b, dominates g b a with
        | true, false => some a
        | false, true => some b
        | true, true => if edgeLe a b then some a else some b
        | false, false => none
      else none
    | _, _, _, _ => none
  | _, _ => none

/-! ### Endpoint insertion and removal

`AnnotatedClusterAbstraction::insertStartAndGoalNodesIntoAbstractGraph` and
`removeStartAndGoalNodesFromAbstractGraph` are not in the source set; they
are modelled from the spec (§4.H) and constrained by the unit tests
(lines 249-342, 445-605, 733-779). -/

/-- An abstract edge: its stable id (the path-cache key) and its endpoint
abstract-node ids. -/
structure AEdge where
  eid : Nat
  src : Nat
  dst : Nat
deriving DecidableEq

/-- The mutable abstract state of the cluster abstraction: abstract node
ids, abstract edges, the path-cache keys, the `kParent` label of every
ground node (indexed by ground-node id, `-1` when unset), the transient
`startid`/`goalid`, and the fresh-id counters for nodes and edges. -/
structure AbsState where
  nodes : List Nat
  edges : List AEdge
  cache : List Nat
  parent : List Int
  startid : Int
  goalid : Int
  nextNodeId : Nat
  nextEdgeId : Nat
deriving DecidableEq

/-- The abstract edges created for a freshly inserted abstract node `p`:
one per cluster-mate `q` that annotated A* connected it to, with
consecutive fresh edge ids starting at `base`. -/
def newEdges (base p : Nat) : List Nat → List AEdge
  | [] => []
  | q :: qs => ⟨base, p, q⟩ :: newEdges (base + 1) p qs

/-- Modelled from the spec: insertion of one endpoint (§4.H).  If the
ground node `p` already has an abstract parent (`p.parent ≥ 0`) it is
reused and `startid`/`goalid` stays `-1`; otherwise a fresh abstract node
is created, `p`'s `kParent` label is set to its id, `startid` (resp.
`goalid`) records it, and one abstract edge plus one cached path is added
per cluster-mate in `mates` that annotated A* reached (the embedding takes
that reachable set as a parameter). -/
def insertEndpoint (st : AbsState) (p : Nat) (mates : List Nat)
    (isStart : Bool) : AbsState :=
  if 0 ≤ st.parent.getD p (-1) then st
  else
    { nodes := st.nextNodeId :: st.nodes
      edges := newEdges st.nextEdgeId st.nextNodeId mates ++ st.edges
      cache := (newEdges st.nextEdgeId st.nextNodeId mates).map (fun e => e.eid) ++ st.cache
      parent := st.parent.set p (st.nextNodeId : Int)
      startid := if isStart then (st.nextNodeId : Int) else st.startid
      goalid := if isStart then st.goalid else (st.nextNodeId : Int)
      nextNodeId := st.nextNodeId + 1
      nextEdgeId := st.nextEdgeId + mates.length }

/-- Modelled from the spec: `insertStartAndGoalNodesIntoAbstractGraph`
(§4.H), inserting the start endpoint and then the goal endpoint. -/
def insertStartAndGoal (st : AbsState) (start goal : Nat)
    (startMates goalMates : List Nat) : AbsState :=
  insertEndpoint (insertEndpoint st start startMates true) goal goalMates false

/-- The abstract node id `n` is one of the transient endpoint nodes
recorded in `startid`/`goalid`. -/
def isEndpointId (st : AbsState) (n : Nat) : Bool :=
  (n : Int) = st.startid || (n : Int) = st.goalid

/-- Modelled from the spec: `removeStartAndGoalNodesFromAbstractGraph`
(§4.H).  Deletes exactly the abstract nodes whose ids are in
`{startid, goalid}` (only those actually created), all abstract edges
incident to them, and the corresponding cache entries; resets to `-1` the
ground `kParent` labels the insertion set, and resets
`startid = goalid = -1`. -/
def removeStartAndGoal (st : AbsState) : AbsState :=
  { nodes := st.nodes.filter (fun n => !(isEndpointId st n))
    edges := st.edges.filter (fun e => !(isEndpointId st e.src || isEndpointId st e.dst))
    cache := st.cache.filter
      (fun c => !(st.edges.any
        (fun e => (isEndpointId st e.src || isEndpointId st e.dst) && e.eid = c)))
    parent := st.parent.map (fun v => if v = st.startid ∨ v = st.goalid then -1 else v)
    startid := -1
    goalid := -1
    nextNodeId := st.nextNodeId
    nextEdgeId := st.nextEdgeId }

/-- The well-formedness invariant of the abstract state between queries:
no transient endpoints are present (`startid = goalid = -1`), every stored
id is below the corresponding fresh-id counter, and every ground `kParent`
label is `-1` or a valid abstract node id. -/
def Inv (st : AbsState) : Prop :=
  st.startid = -1 ∧ st.goalid = -1
    ∧ (∀ n ∈ st.nodes, n < st.nextNodeId)
    ∧ (∀ e ∈ st.edges, e.eid < st.nextEdgeId ∧ e.src < st.nextNodeId ∧ e.dst < st.nextNodeId)
    ∧ (∀ c ∈ st.cache, c < st.nextEdgeId)
    ∧ (∀ v ∈ st.parent, -1 ≤ v ∧ v < (st.nextNodeId : Int))

instance (st : AbsState) : Decidable (Inv st) := by
  unfold Inv; infer_instance

end ACA

/-! ## Theorems -/

/-- C1: In `AnnotatedHierarchicalAStar::getPath`, endpoint removal is *not*
performed on the exit path where the abstract A* search finds no path: the
function returns null (lines 52-53) before ever reaching the
`removeStartAndGoalNodesFromAbstractGraph` call (line 109), contradicting
the specification's requirement that removal runs on all exit paths. -/
theorem getPath_skips_removal_on_search_failure (env : AHA.QueryEnv)
    (h : env.absSearch = none) :
    AHA.getPathRun env = (AHA.QueryOutcome.nullPath, false) := by
  simp [AHA.getPathRun, h]

/-- Witness: a concrete query environment whose abstract search fails;
the caller receives null and removal was not performed. -/
theorem getPath_skips_removal_on_search_failure_witness :
    AHA.getPathRun ⟨none, fun _ _ => none, fun _ => none⟩
      = (AHA.QueryOutcome.nullPath, false) :=
  getPath_skips_removal_on_search_failure ⟨none, fun _ _ => none, fun _ => none⟩ rfl

/-- C9: `AnnotatedHierarchicalAStar::evaluate` returns false when `n` or
`target` is null, when no edge is being traversed, or when `n` or `target`
is not an endpoint of the traversed edge; otherwise it returns true iff
the traversed edge's clearance for the search's capability is at least the
search's required clearance. -/
theorem evaluate_spec (s : AHA.EvalState) (n target : Option AHA.SNode) :
    ((n = none ∨ target = none) → AHA.evaluate s n target = false)
    ∧ (s.traversing = none → AHA.evaluate s n target = false)
    ∧ (∀ nn tt e, n = some nn → target = some tt → s.traversing = some e →
        (((nn.num ≠ e.dst ∧ nn.num ≠ e.src) ∨ (tt.num ≠ e.dst ∧ tt.num ≠ e.src)) →
          AHA.evaluate s n target = false)
        ∧ ((nn.num = e.dst ∨ nn.num = e.src) → (tt.num = e.dst ∨ tt.num = e.src) →
          (AHA.evaluate s n target = true ↔ s.clearance ≤ e.clearanceOf s.capability))) := by
  refine ⟨?_, ?_, ?_⟩
  · rintro (rfl | rfl)
    · cases target <;> simp [AHA.evaluate]
    · cases n <;> simp [AHA.evaluate]
  · intro h
    cases n <;> cases target <;> simp [AHA.evaluate, h]
  · rintro nn tt e rfl rfl he
    constructor
    · rintro (hn | ht) <;> simp [AHA.evaluate, he] <;> intros <;> tauto
    · intro hn ht
      have hn' : ¬(nn.num ≠ e.dst ∧ nn.num ≠ e.src) := by tauto
      have ht' : ¬(tt.num ≠ e.dst ∧ tt.num ≠ e.src) := by tauto
      simp [AHA.evaluate, he, hn', ht']

/-- Witness for C9 at concrete inputs: with an edge `0 → 1` of clearance 3
under capability 2 and required clearance 2, evaluating its two endpoints
returns true, and a null node returns false. -/
theorem evaluate_spec_witness :
    AHA.evaluate ⟨some ⟨0, 1, fun c => if c = 2 then 3 else 0⟩, 2, 2⟩
        (some ⟨0⟩) (some ⟨1⟩) = true
    ∧ AHA.evaluate ⟨some ⟨0, 1, fun c => if c = 2 then 3 else 0⟩, 2, 2⟩
        none (some ⟨1⟩) = false := by
  constructor
  · exact ((evaluate_spec ⟨some ⟨0, 1, fun c => if c = 2 then 3 else 0⟩, 2, 2⟩
      (some ⟨0⟩) (some ⟨1⟩)).2.2 ⟨0⟩ ⟨1⟩ _ rfl rfl rfl).2
      (by simp) (by simp) |>.mpr (by norm_num)
  · exact (evaluate_spec ⟨some ⟨0, 1, fun c => if c = 2 then 3 else 0⟩, 2, 2⟩
      none (some ⟨1⟩)).1 (Or.inl rfl)

/-- C10: `AnnotatedMapAbstraction::pathable` returns false without invoking
the search whenever either endpoint's terrain type does not include the
requested capability or either endpoint's clearance for its own terrain
type is below `agentsize`; otherwise it invokes annotated A* and returns
true iff a path is found. -/
theorem pathable_spec (search : AMA.PNode → AMA.PNode → Nat → Nat → Option (List Nat))
    (nfrom nto : AMA.PNode) (terrain agentsize : Nat) :
    ((¬(nfrom.terrain &&& terrain = terrain) ∨ ¬(nto.terrain &&& terrain = terrain)
        ∨ nfrom.clearanceOf nfrom.terrain < agentsize
        ∨ nto.clearanceOf nto.terrain < agentsize) →
      AMA.pathableRun search nfrom nto terrain agentsize = (false, false))
    ∧ ((nfrom.terrain &&& terrain = terrain) → (nto.terrain &&& terrain = terrain) →
        agentsize ≤ nfrom.clearanceOf nfrom.terrain →
        agentsize ≤ nto.clearanceOf nto.terrain →
        AMA.pathableRun search nfrom nto terrain agentsize
          = ((search nfrom nto terrain agentsize).isSome, true)) := by
  constructor
  · intro h
    rw [AMA.pathableRun, if_pos]
    omega
  · intro h1 h2 h3 h4
    rw [AMA.pathableRun, if_neg]
    omega

/-- Witness for C10 at concrete inputs: a ground-terrain endpoint of
clearance 2 paired with a trees-terrain endpoint under a ground query is
rejected without search; two admissible ground endpoints run the search. -/
theorem pathable_spec_witness :
    AMA.pathableRun (fun _ _ _ _ => some [0]) ⟨1, fun _ => 2⟩ ⟨2, fun _ => 2⟩ 1 1
      = (false, false)
    ∧ AMA.pathableRun (fun _ _ _ _ => some [0]) ⟨1, fun _ => 2⟩ ⟨1, fun _ => 2⟩ 1 1
      = (true, true) := by
  constructor
  · exact (pathable_spec (fun _ _ _ _ => some [0]) ⟨1, fun _ => 2⟩ ⟨2, fun _ => 2⟩ 1 1).1
      (by norm_num)
  · exact (pathable_spec (fun _ _ _ _ => some [0]) ⟨1, fun _ => 2⟩ ⟨1, fun _ => 2⟩ 1 1).2
      (by norm_num) (by norm_num) (by norm_num) (by norm_num)

/-- C2: for every non-obstacle tile and every terrain subset `s`, the
clearance computed by `AnnotatedMapAbstraction::annotateMap` is 0 when the
tile's terrain type is not a subset of `s`; else 1 when any of the three
successors `(x+1,y)`, `(x,y+1)`, `(x+1,y+1)` is missing (edge of map or
obstacle); else 1 plus the minimum of the three successors' clearances. -/
theorem clearance_spec (g : AMA.Grid) (s x y t : Nat)
    (h : AMA.nodeAt g x y = some t) :
    (¬(s &&& t = t) → AMA.clearance g s x y = 0)
    ∧ ((s &&& t = t) →
        ((AMA.nodeAt g (x + 1) (y + 1) = none ∨ AMA.nodeAt g (x + 1) y = none
            ∨ AMA.nodeAt g x (y + 1) = none) →
          AMA.clearance g s x y = 1)
        ∧ ((AMA.nodeAt g (x + 1) (y + 1)).isSome → (AMA.nodeAt g (x + 1) y).isSome →
            (AMA.nodeAt g x (y + 1)).isSome →
          AMA.clearance g s x y =
            min (AMA.clearance g s (x + 1) (y + 1))
              (min (AMA.clearance g s (x + 1) y) (AMA.clearance g s x (y + 1))) + 1)) := by
  have hb : x < g.width ∧ y < g.height := by
    by_contra hc
    rw [AMA.nodeAt, if_neg hc] at h
    exact Option.noConfusion h
  have ht : g.terrain x y = some t := by
    rwa [AMA.nodeAt, if_pos hb] at h
  rw [AMA.clearance]
  simp only [dif_pos hb, ht]
  refine ⟨?_, fun hs => ⟨?_, ?_⟩⟩
  · intro hs
    split <;> simp [hs]
  · intro hmiss
    rw [if_neg, if_pos hs]
    simp only [Option.isSome_iff_ne_none]
    tauto
  · intro h1 h2 h3
    rw [if_pos ⟨h1, h2, h3⟩, if_pos hs]

/-- Witness for C2 on a concrete 2×2 all-traversable grid: the interior
tile `(0,0)` gets clearance 2 via the recursive case, and the
wrong-terrain subset 2 gives clearance 0 there. -/
theorem clearance_spec_witness :
    AMA.clearance ⟨2, 2, fun _ _ => some 1⟩ 1 0 0 = 2
    ∧ AMA.clearance ⟨2, 2, fun _ _ => some 1⟩ 2 0 0 = 0 := by
  constructor
  · have h := ((clearance_spec ⟨2, 2, fun _ _ => some 1⟩ 1 0 0 1
        (by simp [AMA.nodeAt])).2 (by norm_num)).2
        (by simp [AMA.nodeAt]) (by simp [AMA.nodeAt]) (by simp [AMA.nodeAt])
    rw [h]
    simp [AMA.clearance, AMA.nodeAt]
  · exact (clearance_spec ⟨2, 2, fun _ _ => some 1⟩ 2 0 0 1
      (by simp [AMA.nodeAt])).1 (by norm_num)

/-- C4 counterexample: on the concrete `twoRowGrid`, the tiles `(1,0)` and
`(0,1)` are 8-neighbors with nodes on both, yet the ground graph contains
no edge between them (`addMissingEdges` only inspects the west, north and
north-west directions); moreover the diagonal pair `(0,0)`–`(1,1)` gets an
edge of weight `1.0`, not `√2`. -/
theorem groundEdge_counterexample :
    AMA.adjacentTiles 1 0 0 1
    ∧ (AMA.nodeAt AMA.twoRowGrid 1 0).isSome
    ∧ (AMA.nodeAt AMA.twoRowGrid 0 1).isSome
    ∧ AMA.groundEdge AMA.twoRowGrid 1 0 0 1 = none
    ∧ AMA.diagonalTiles 0 0 1 1
    ∧ AMA.groundEdge AMA.twoRowGrid 0 0 1 1 = some AMA.Wt.one := by
  decide

/-- C4 (amended): cardinal neighbor pairs always have a ground edge of
weight `1.0`; same-terrain diagonal pairs have one of weight `√2`;
cross-terrain diagonal pairs have an edge iff they are oriented NW–SE,
and then its weight is `1.0` (not `√2`); cross-terrain NE–SW diagonal
pairs have no edge. -/
theorem groundEdge_spec (g : AMA.Grid) (x1 y1 x2 y2 t1 t2 : Nat)
    (h1 : AMA.nodeAt g x1 y1 = some t1) (h2 : AMA.nodeAt g x2 y2 = some t2) :
    (AMA.adjacentTiles x1 y1 x2 y2 → ¬AMA.diagonalTiles x1 y1 x2 y2 →
      AMA.groundEdge g x1 y1 x2 y2 = some AMA.Wt.one)
    ∧ (AMA.diagonalTiles x1 y1 x2 y2 → t1 = t2 →
      AMA.groundEdge g x1 y1 x2 y2 = some AMA.Wt.rt2)
    ∧ (AMA.diagonalTiles x1 y1 x2 y2 → t1 ≠ t2 →
      (((x1 + 1 = x2 ∧ y1 + 1 = y2) ∨ (x2 + 1 = x1 ∧ y2 + 1 = y1)) →
        AMA.groundEdge g x1 y1 x2 y2 = some AMA.Wt.one)
      ∧ (((x1 + 1 = x2 ∧ y2 + 1 = y1) ∨ (x2 + 1 = x1 ∧ y1 + 1 = y2)) →
        AMA.groundEdge g x1 y1 x2 y2 = none)) := by
  have hs1 : (AMA.nodeAt g x1 y1).isSome := by rw [h1]; rfl
  have hs2 : (AMA.nodeAt g x2 y2).isSome := by rw [h2]; rfl
  have hbase : AMA.baseEdge g x1 y1 x2 y2
      = if t1 = t2 ∧ AMA.adjacentTiles x1 y1 x2 y2
        then some (if AMA.diagonalTiles x1 y1 x2 y2 then AMA.Wt.rt2 else AMA.Wt.one)
        else none := by
    simp only [AMA.baseEdge, h1, h2]
  have hbase' : AMA.baseEdge g x2 y2 x1 y1
      = if t2 = t1 ∧ AMA.adjacentTiles x2 y2 x1 y1
        then some (if AMA.diagonalTiles x2 y2 x1 y1 then AMA.Wt.rt2 else AMA.Wt.one)
        else none := by
    simp only [AMA.baseEdge, h1, h2]
  refine ⟨?_, ?_, ?_⟩
  · intro hadj hnd
    by_cases ht : t1 = t2
    · have hb : AMA.baseEdge g x1 y1 x2 y2 = some AMA.Wt.one := by
        rw [hbase, if_pos ⟨ht, hadj⟩, if_neg hnd]
      simp only [AMA.groundEdge, hb]
    · have hb : AMA.baseEdge g x1 y1 x2 y2 = none := by
        rw [hbase, if_neg]
        rintro ⟨h, _⟩
        exact ht h
      have hb' : AMA.baseEdge g x2 y2 x1 y1 = none := by
        rw [hbase', if_neg]
        rintro ⟨h, _⟩
        exact ht h.symm
      obtain ⟨hne, hdx, hdy⟩ := hadj
      simp only [AMA.diagonalTiles, not_and] at hnd
      have hcase : (x2 + 1 = x1 ∧ y2 = y1) ∨ (x1 + 1 = x2 ∧ y1 = y2)
          ∨ (x2 = x1 ∧ y2 + 1 = y1) ∨ (x1 = x2 ∧ y1 + 1 = y2) := by
        omega
      simp only [AMA.groundEdge, hb]
      rcases hcase with ⟨hx, hy⟩ | ⟨hx, hy⟩ | ⟨hx, hy⟩ | ⟨hx, hy⟩
      · rw [if_pos (Or.inl ⟨hs1, hs2, Or.inl ⟨hx, hy⟩, hb⟩)]
      · rw [if_pos (Or.inr ⟨hs2, hs1, Or.inl ⟨hx, hy⟩, hb'⟩)]
      · rw [if_pos (Or.inl ⟨hs1, hs2, Or.inr (Or.inl ⟨hx, hy⟩), hb⟩)]
      · rw [if_pos (Or.inr ⟨hs2, hs1, Or.inr (Or.inl ⟨hx, hy⟩), hb'⟩)]
  · intro hd ht
    have hadj : AMA.adjacentTiles x1 y1 x2 y2 := by
      obtain ⟨hdx, hdy⟩ := hd
      exact ⟨by omega, by omega, by omega⟩
    have hb : AMA.baseEdge g x1 y1 x2 y2 = some AMA.Wt.rt2 := by
      rw [hbase, if_pos ⟨ht, hadj⟩, if_pos hd]
    simp only [AMA.groundEdge, hb]
  · intro hd ht
    have hb : AMA.baseEdge g x1 y1 x2 y2 = none := by
      rw [hbase, if_neg]
      rintro ⟨h, _⟩
      exact ht h
    have hb' : AMA.baseEdge g x2 y2 x1 y1 = none := by
      rw [hbase', if_neg]
      rintro ⟨h, _⟩
      exact ht h.symm
    constructor
    · rintro (⟨hx, hy⟩ | ⟨hx, hy⟩)
      · simp only [AMA.groundEdge, hb]
        rw [if_pos (Or.inr ⟨hs2, hs1, Or.inr (Or.inr ⟨hx, hy⟩), hb'⟩)]
      · simp only [AMA.groundEdge, hb]
        rw [if_pos (Or.inl ⟨hs1, hs2, Or.inr (Or.inr ⟨hx, hy⟩), hb⟩)]
    · intro hne'
      have hnp : ¬(AMA.addedPair g x1 y1 x2 y2 ∨ AMA.addedPair g x2 y2 x1 y1) := by
        rintro (⟨_, _, hdir, _⟩ | ⟨_, _, hdir, _⟩) <;>
          rcases hne' with ⟨hx, hy⟩ | ⟨hx, hy⟩ <;>
          rcases hdir with ⟨ha, hb2⟩ | ⟨ha, hb2⟩ | ⟨ha, hb2⟩ <;> omega
      simp only [AMA.groundEdge, hb]
      rw [if_neg hnp]

/-- Witness for C4 (amended) at concrete inputs: on the uniform grid a
cardinal pair gets weight `1.0` and a diagonal pair weight `√2`; on the
terrain-boundary grid the cross-terrain NW–SE diagonal gets weight `1.0`
and the cross-terrain NE–SW diagonal gets no edge. -/
theorem groundEdge_spec_witness :
    AMA.groundEdge AMA.flatGrid 0 0 1 0 = some AMA.Wt.one
    ∧ AMA.groundEdge AMA.flatGrid 0 0 1 1 = some AMA.Wt.rt2
    ∧ AMA.groundEdge AMA.twoRowGrid 0 0 1 1 = some AMA.Wt.one
    ∧ AMA.groundEdge AMA.twoRowGrid 1 0 0 1 = none :=
  ⟨(groundEdge_spec AMA.flatGrid 0 0 1 0 1 1 (by decide) (by decide)).1
      (by decide) (by decide),
    (groundEdge_spec AMA.flatGrid 0 0 1 1 1 1 (by decide) (by decide)).2.1
      (by decide) rfl,
    ((groundEdge_spec AMA.twoRowGrid 0 0 1 1 1 2 (by decide) (by decide)).2.2
      (by decide) (by decide)).1 (Or.inl ⟨rfl, rfl⟩),
    ((groundEdge_spec AMA.twoRowGrid 1 0 0 1 1 2 (by decide) (by decide)).2.2
      (by decide) (by decide)).2 (Or.inr ⟨rfl, rfl⟩)⟩

lemma edgeLe_total (a b : ACA.DEdge) :
    ACA.edgeLe a b = true ∨ ACA.edgeLe b a = true := by
  simp only [ACA.edgeLe, decide_eq_true_eq]
  omega

lemma edgeLe_antisymm (a b : ACA.DEdge) (h1 : ACA.edgeLe a b = true)
    (h2 : ACA.edgeLe b a = true) : a = b := by
  cases a; cases b
  simp only [ACA.edgeLe, decide_eq_true_eq] at h1 h2
  simp only [ACA.DEdge.mk.injEq]
  omega

lemma clusterPairMatch_symm (ca1 ca2 cb1 cb2 : Nat) :
    ACA.clusterPairMatch ca1 ca2 cb1 cb2 = ACA.clusterPairMatch cb1 cb2 ca1 ca2 := by
  simp only [ACA.clusterPairMatch]
  congr 1 <;> rw [decide_eq_decide] <;> omega

/-- C5: `findDominantTransition` is symmetric in argument order, and null
arguments, endpoints with invalid node ids, or edges whose endpoints lie
in non-matching cluster pairs all yield no dominant edge. -/
theorem findDominantTransition_spec (g : ACA.DGraph) (e1 e2 : Option ACA.DEdge) :
    ACA.findDominantTransition g e1 e2 = ACA.findDominantTransition g e2 e1
    ∧ ((e1 = none ∨ e2 = none) → ACA.findDominantTransition g e1 e2 = none)
    ∧ (∀ a b, e1 = some a → e2 = some b →
        (g.clusterOf a.src = none ∨ g.clusterOf a.dst = none
          ∨ g.clusterOf b.src = none ∨ g.clusterOf b.dst = none) →
        ACA.findDominantTransition g e1 e2 = none)
    ∧ (∀ a b ca1 ca2 cb1 cb2, e1 = some a → e2 = some b →
        g.clusterOf a.src = some ca1 → g.clusterOf a.dst = some ca2 →
        g.clusterOf b.src = some cb1 → g.clusterOf b.dst = some cb2 →
        ACA.clusterPairMatch ca1 ca2 cb1 cb2 = false →
        ACA.findDominantTransition g e1 e2 = none) := by
  refine ⟨?_, ?_, ?_, ?_⟩
  · cases e1 with
    | none => cases e2 <;> rfl
    | some a =>
      cases e2 with
      | none => rfl
      | some b =>
        rcases ha1 : g.clusterOf a.src with _ | ca1 <;>
          rcases ha2 : g.clusterOf a.dst with _ | ca2 <;>
          rcases hb1 : g.clusterOf b.src with _ | cb1 <;>
          rcases hb2 : g.clusterOf b.dst with _ | cb2 <;>
          simp only [ACA.findDominantTransition, ha1, ha2, hb1, hb2]
        rw [clusterPairMatch_symm]
        by_cases hm : ACA.clusterPairMatch cb1 cb2 ca1 ca2 = true
        · rw [if_pos hm, if_pos hm]
          cases hab : ACA.dominates g a b <;> cases hba : ACA.dominates g b a <;> try rfl
          show (if ACA.edgeLe a b = true then some a else some b)
            = (if ACA.edgeLe b a = true then some b else some a)
          rcases edgeLe_total a b with h | h
          · cases hle : ACA.edgeLe b a with
            | false => rw [if_pos h]; simp
            | true => rw [if_pos h, edgeLe_antisymm a b h hle]; simp
          · cases hle : ACA.edgeLe a b with
            | false => simp [h]
            | true => rw [edgeLe_antisymm a b hle h]; simp
        · rw [if_neg hm, if_neg hm]
  · rintro (rfl | rfl)
    · cases e2 <;> rfl
    · cases e1 <;> rfl
  · rintro a b rfl rfl h
    rcases ha1 : g.clusterOf a.src with _ | ca1 <;>
      rcases ha2 : g.clusterOf a.dst with _ | ca2 <;>
      rcases hb1 : g.clusterOf b.src with _ | cb1 <;>
      rcases hb2 : g.clusterOf b.dst with _ | cb2 <;>
      (simp only [ACA.findDominantTransition, ha1, ha2, hb1, hb2]; try simp_all)
  · rintro a b ca1 ca2 cb1 cb2 rfl rfl ha1 ha2 hb1 hb2 hm
    simp only [ACA.findDominantTransition, ha1, ha2, hb1, hb2]
    rw [if_neg]
    simp [hm]

/-- Witness for C5 at concrete inputs: a small abstract graph with four
valid nodes in clusters `0,1,0,1`, a dominant edge pair compared in both
orders, a null argument, an invalid endpoint, and a non-matching cluster
pair. -/
theorem findDominantTransition_spec_witness :
    ACA.findDominantTransition
        ⟨fun n => if n < 4 then some (n % 2) else none, fun _ _ _ _ => true⟩
        (some ⟨0, 0, 1, 1, 3⟩) (some ⟨1, 2, 3, 1, 1⟩)
      = ACA.findDominantTransition
        ⟨fun n => if n < 4 then some (n % 2) else none, fun _ _ _ _ => true⟩
        (some ⟨1, 2, 3, 1, 1⟩) (some ⟨0, 0, 1, 1, 3⟩)
    ∧ ACA.findDominantTransition
        ⟨fun n => if n < 4 then some (n % 2) else none, fun _ _ _ _ => true⟩
        none (some ⟨1, 2, 3, 1, 1⟩) = none
    ∧ ACA.findDominantTransition
        ⟨fun n => if n < 4 then some (n % 2) else none, fun _ _ _ _ => true⟩
        (some ⟨2, 7, 1, 1, 3⟩) (some ⟨1, 2, 3, 1, 1⟩) = none
    ∧ ACA.findDominantTransition
        ⟨fun n => if n < 4 then some (n % 2) else none, fun _ _ _ _ => true⟩
        (some ⟨0, 0, 1, 1, 3⟩) (some ⟨4, 0, 2, 1, 1⟩) = none :=
  ⟨(findDominantTransition_spec _ _ _).1,
    (findDominantTransition_spec _ _ _).2.1 (Or.inl rfl),
    (findDominantTransition_spec _ _ _).2.2.1 _ _ rfl rfl (Or.inl (by decide)),
    (findDominantTransition_spec _ _ _).2.2.2 _ _ 0 1 0 0 rfl rfl
      (by decide) (by decide) (by decide) (by decide) (by decide)⟩

/-- C6 counterexample: on the fixed test map `acmap` with cluster size 5
the decomposition's cluster widths are `[5, 4, 5, 4]` (the repository's
own test `buildClustersShouldCalculateCorrectClusterSize` asserts exactly
these), not `[5, 5, 5, 5]` as claimed. -/
theorem buildClusters_acmap_widths_counterexample :
    (ACA.buildClusters ACA.acmapWidth ACA.acmapHeight 5).map ACA.Cluster.width
      = [5, 4, 5, 4]
    ∧ ([5, 4, 5, 4] : List Nat) ≠ [5, 5, 5, 5] := by
  decide

/-- C6 (amended): on the fixed 9×6 map `acmap` with cluster size 5, the
decomposition produces exactly 4 clusters with widths `[5, 4, 5, 4]` and
heights `[5, 5, 1, 1]`, cluster `(i, j)` having width `min(5, W - 5i)` and
height `min(5, H - 5j)`. -/
theorem buildClusters_acmap_spec :
    (ACA.buildClusters ACA.acmapWidth ACA.acmapHeight 5).length = 4
    ∧ (ACA.buildClusters ACA.acmapWidth ACA.acmapHeight 5).map ACA.Cluster.width
        = [5, 4, 5, 4]
    ∧ (ACA.buildClusters ACA.acmapWidth ACA.acmapHeight 5).map ACA.Cluster.height
        = [5, 5, 1, 1]
    ∧ ∀ c ∈ ACA.buildClusters ACA.acmapWidth ACA.acmapHeight 5,
        c.width = min 5 (ACA.acmapWidth - c.i * 5)
        ∧ c.height = min 5 (ACA.acmapHeight - c.j * 5) := by
  decide

lemma newEdges_mem (base p : Nat) (qs : List Nat) :
    ∀ e ∈ ACA.newEdges base p qs, e.src = p ∧ base ≤ e.eid := by
  induction qs generalizing base with
  | nil => intro e he; simp [ACA.newEdges] at he
  | cons q qs ih =>
    intro e he
    rw [ACA.newEdges, List.mem_cons] at he
    rcases he with rfl | he
    · exact ⟨rfl, Nat.le_refl _⟩
    · obtain ⟨h1, h2⟩ := ih (base + 1) e he
      exact ⟨h1, by omega⟩

lemma map_id_of_mem (l : List Int) (f : Int → Int) (h : ∀ a ∈ l, f a = a) :
    l.map f = l := by
  induction l with
  | nil => rfl
  | cons a t ih =>
    rw [List.map_cons, h a (by simp), ih (fun b hb => h b (by simp [hb]))]

lemma getD_eq_neg_one (l : List Int) (p : Nat) (hlb : ∀ v ∈ l, -1 ≤ v)
    (h : ¬ 0 ≤ l.getD p (-1)) : l.getD p (-1) = -1 := by
  by_cases hp : p < l.length
  · rw [List.getD_eq_getElem l (-1) hp] at h ⊢
    have := hlb _ (List.getElem_mem hp)
    omega
  · rw [List.getD_eq_default l (-1) (by omega)]

lemma set_getD_neg_one (l : List Int) (i : Nat) (h : l.getD i (-1) = -1) :
    l.set i (-1) = l := by
  induction l generalizing i with
  | nil => rfl
  | cons a t ih =>
    cases i with
    | zero =>
      rw [List.getD_cons_zero] at h
      rw [List.set_cons_zero, h]
    | succ n =>
      rw [List.getD_cons_succ] at h
      rw [List.set_cons_succ, ih n h]

lemma getD_of_set_getD (l : List Int) (i j : Nat) (v : Int) (hv : 0 ≤ v)
    (h : (l.set i v).getD j (-1) = -1) : l.getD j (-1) = -1 := by
  by_cases hij : i = j
  · subst hij
    by_cases hlen : i < l.length
    · rw [List.getD_eq_getElem _ (-1) (by simpa using hlen)] at h
      rw [List.getElem_set_self (by simpa using hlen)] at h
      omega
    · rwa [List.set_eq_of_length_le (by omega)] at h
  · rwa [List.getD_eq_getElem?_getD, List.getElem?_set_ne hij,
      ← List.getD_eq_getElem?_getD] at h

lemma insertEndpoint_reuse (st : ACA.AbsState) (p : Nat) (mates : List Nat)
    (isStart : Bool) (h : 0 ≤ st.parent.getD p (-1)) :
    ACA.insertEndpoint st p mates isStart = st := by
  unfold ACA.insertEndpoint
  rw [if_pos h]

lemma insertEndpoint_fresh (st : ACA.AbsState) (p : Nat) (mates : List Nat)
    (isStart : Bool) (h : ¬ 0 ≤ st.parent.getD p (-1)) :
    ACA.insertEndpoint st p mates isStart =
      { nodes := st.nextNodeId :: st.nodes
        edges := ACA.newEdges st.nextEdgeId st.nextNodeId mates ++ st.edges
        cache := (ACA.newEdges st.nextEdgeId st.nextNodeId mates).map (fun e => e.eid)
          ++ st.cache
        parent := st.parent.set p (st.nextNodeId : Int)
        startid := if isStart then (st.nextNodeId : Int) else st.startid
        goalid := if isStart then st.goalid else (st.nextNodeId : Int)
        nextNodeId := st.nextNodeId + 1
        nextEdgeId := st.nextEdgeId + mates.length } := by
  unfold ACA.insertEndpoint
  rw [if_neg h]

lemma remove_nodes (st : ACA.AbsState) :
    (ACA.removeStartAndGoal st).nodes
      = st.nodes.filter (fun n => !(ACA.isEndpointId st n)) := rfl

lemma remove_edges (st : ACA.AbsState) :
    (ACA.removeStartAndGoal st).edges
      = st.edges.filter
          (fun e => !(ACA.isEndpointId st e.src || ACA.isEndpointId st e.dst)) := rfl

lemma remove_cache (st : ACA.AbsState) :
    (ACA.removeStartAndGoal st).cache
      = st.cache.filter
          (fun c => !(st.edges.any
            (fun e => (ACA.isEndpointId st e.src || ACA.isEndpointId st e.dst)
              && e.eid = c))) := rfl

lemma remove_parent (st : ACA.AbsState) :
    (ACA.removeStartAndGoal st).parent
      = st.parent.map (fun v => if v = st.startid ∨ v = st.goalid then -1 else v) := rfl

lemma remove_startid (st : ACA.AbsState) :
    (ACA.removeStartAndGoal st).startid = -1 := rfl

lemma remove_goalid (st : ACA.AbsState) :
    (ACA.removeStartAndGoal st).goalid = -1 := rfl

lemma remove_restores_lists (st2 : ACA.AbsState) (extraN : List Nat)
    (extraE : List ACA.AEdge) (extraC : List Nat)
    (oldN : List Nat) (oldE : List ACA.AEdge) (oldC : List Nat)
    (hN : st2.nodes = extraN ++ oldN)
    (hE : st2.edges = extraE ++ oldE)
    (hC : st2.cache = extraC ++ oldC)
    (hNnew : ∀ n ∈ extraN, ACA.isEndpointId st2 n = true)
    (hNold : ∀ n ∈ oldN, ACA.isEndpointId st2 n = false)
    (hEnew : ∀ e ∈ extraE, ACA.isEndpointId st2 e.src = true)
    (hEold : ∀ e ∈ oldE,
      ACA.isEndpointId st2 e.src = false ∧ ACA.isEndpointId st2 e.dst = false)
    (hCnew : ∀ c ∈ extraC, ∃ e ∈ st2.edges,
      (ACA.isEndpointId st2 e.src = true ∨ ACA.isEndpointId st2 e.dst = true)
        ∧ e.eid = c)
    (hCold : ∀ c ∈ oldC, ∀ e ∈ st2.edges,
      (ACA.isEndpointId st2 e.src = false ∧ ACA.isEndpointId st2 e.dst = false)
        ∨ e.eid ≠ c) :
    (ACA.removeStartAndGoal st2).nodes = oldN
    ∧ (ACA.removeStartAndGoal st2).edges = oldE
    ∧ (ACA.removeStartAndGoal st2).cache = oldC := by
  refine ⟨?_, ?_, ?_⟩
  · rw [remove_nodes, hN, List.filter_append,
      List.filter_eq_nil_iff.mpr (by intro n hn; simp [hNnew n hn]),
      List.filter_eq_self.mpr (by intro n hn; simp [hNold n hn]),
      List.nil_append]
  · rw [remove_edges, hE, List.filter_append,
      List.filter_eq_nil_iff.mpr (by intro e he; simp [hEnew e he]),
      List.filter_eq_self.mpr
        (by intro e he; simp [(hEold e he).1, (hEold e he).2]),
      List.nil_append]
  · rw [remove_cache, hC, List.filter_append,
      List.filter_eq_nil_iff.mpr (by
        intro c hc
        obtain ⟨e, he, hor, heq⟩ := hCnew c hc
        have hany : st2.edges.any
            (fun e => (ACA.isEndpointId st2 e.src || ACA.isEndpointId st2 e.dst)
              && e.eid = c) = true :=
          List.any_eq_true.mpr ⟨e, he, by rcases hor with h | h <;> simp [h, heq]⟩
        simp [hany]),
      List.filter_eq_self.mpr (by
        intro c hc
        have hany : st2.edges.any
            (fun e => (ACA.isEndpointId st2 e.src || ACA.isEndpointId st2 e.dst)
              && e.eid = c) = false := by
          rw [List.any_eq_false]
          intro e he
          rcases hCold c hc e he with ⟨h1, h2⟩ | hne
          · simp [h1, h2]
          · simp [hne]
        simp [hany]),
      List.nil_append]

lemma insertEndpoint_fresh_start (st : ACA.AbsState) (p : Nat) (mates : List Nat)
    (h : ¬ 0 ≤ st.parent.getD p (-1)) :
    ACA.insertEndpoint st p mates true =
      { nodes := st.nextNodeId :: st.nodes
        edges := ACA.newEdges st.nextEdgeId st.nextNodeId mates ++ st.edges
        cache := (ACA.newEdges st.nextEdgeId st.nextNodeId mates).map (fun e => e.eid)
          ++ st.cache
        parent := st.parent.set p (st.nextNodeId : Int)
        startid := (st.nextNodeId : Int)
        goalid := st.goalid
        nextNodeId := st.nextNodeId + 1
        nextEdgeId := st.nextEdgeId + mates.length } := by
  rw [insertEndpoint_fresh st p mates true h]
  rfl

lemma insertEndpoint_fresh_goal (st : ACA.AbsState) (p : Nat) (mates : List Nat)
    (h : ¬ 0 ≤ st.parent.getD p (-1)) :
    ACA.insertEndpoint st p mates false =
      { nodes := st.nextNodeId :: st.nodes
        edges := ACA.newEdges st.nextEdgeId st.nextNodeId mates ++ st.edges
        cache := (ACA.newEdges st.nextEdgeId st.nextNodeId mates).map (fun e => e.eid)
          ++ st.cache
        parent := st.parent.set p (st.nextNodeId : Int)
        startid := st.startid
        goalid := (st.nextNodeId : Int)
        nextNodeId := st.nextNodeId + 1
        nextEdgeId := st.nextEdgeId + mates.length } := by
  rw [insertEndpoint_fresh st p mates false h]
  rfl

lemma remove_one_fresh (st st2 : ACA.AbsState) (p : Nat) (mates : List Nat)
    (sid gid : Int)
    (hst2 : st2 =
      { nodes := st.nextNodeId :: st.nodes
        edges := ACA.newEdges st.nextEdgeId st.nextNodeId mates ++ st.edges
        cache := (ACA.newEdges st.nextEdgeId st.nextNodeId mates).map (fun e => e.eid)
          ++ st.cache
        parent := st.parent.set p (st.nextNodeId : Int)
        startid := sid
        goalid := gid
        nextNodeId := st.nextNodeId + 1
        nextEdgeId := st.nextEdgeId + mates.length })
    (hids : (sid = (st.nextNodeId : Int) ∧ gid = -1)
      ∨ (sid = -1 ∧ gid = (st.nextNodeId : Int)))
    (hnode : ∀ n ∈ st.nodes, n < st.nextNodeId)
    (hedge : ∀ e ∈ st.edges,
      e.eid < st.nextEdgeId ∧ e.src < st.nextNodeId ∧ e.dst < st.nextNodeId)
    (hcache : ∀ c ∈ st.cache, c < st.nextEdgeId)
    (hpar : ∀ v ∈ st.parent, -1 ≤ v ∧ v < (st.nextNodeId : Int))
    (hp : st.parent.getD p (-1) = -1) :
    (ACA.removeStartAndGoal st2).nodes = st.nodes
    ∧ (ACA.removeStartAndGoal st2).edges = st.edges
    ∧ (ACA.removeStartAndGoal st2).cache = st.cache
    ∧ (ACA.removeStartAndGoal st2).parent = st.parent
    ∧ (ACA.removeStartAndGoal st2).startid = -1
    ∧ (ACA.removeStartAndGoal st2).goalid = -1 := by
  have hsid : st2.startid = sid := by rw [hst2]
  have hgid : st2.goalid = gid := by rw [hst2]
  have hn2 : st2.nodes = [st.nextNodeId] ++ st.nodes := by rw [hst2]; rfl
  have he2 : st2.edges = ACA.newEdges st.nextEdgeId st.nextNodeId mates ++ st.edges := by
    rw [hst2]
  have hc2 : st2.cache
      = (ACA.newEdges st.nextEdgeId st.nextNodeId mates).map (fun e => e.eid)
        ++ st.cache := by
    rw [hst2]
  have hp2 : st2.parent = st.parent.set p (st.nextNodeId : Int) := by rw [hst2]
  have hend0 : ACA.isEndpointId st2 st.nextNodeId = true := by
    rcases hids with ⟨h1, h2⟩ | ⟨h1, h2⟩ <;>
      simp [ACA.isEndpointId, hsid, hgid, h1, h2]
  have hendLt : ∀ n, n < st.nextNodeId → ACA.isEndpointId st2 n = false := by
    intro n hn
    have e1 : ¬((n : Int) = (st.nextNodeId : Int)) := by omega
    have e2 : ¬((n : Int) = -1) := by omega
    rcases hids with ⟨h1, h2⟩ | ⟨h1, h2⟩ <;>
      simp [ACA.isEndpointId, hsid, hgid, h1, h2, e1, e2]
  obtain ⟨r1, r2, r3⟩ := remove_restores_lists st2 [st.nextNodeId]
    (ACA.newEdges st.nextEdgeId st.nextNodeId mates)
    ((ACA.newEdges st.nextEdgeId st.nextNodeId mates).map (fun e => e.eid))
    st.nodes st.edges st.cache hn2 he2 hc2
    (by intro n hn; rw [List.mem_singleton] at hn; subst hn; exact hend0)
    (fun n hn => hendLt n (hnode n hn))
    (by intro e he; rw [(newEdges_mem _ _ _ e he).1]; exact hend0)
    (fun e he => ⟨hendLt _ (hedge e he).2.1, hendLt _ (hedge e he).2.2⟩)
    (by
      intro c hc
      rw [List.mem_map] at hc
      obtain ⟨e, he, rfl⟩ := hc
      refine ⟨e, ?_, Or.inl (by rw [(newEdges_mem _ _ _ e he).1]; exact hend0), rfl⟩
      rw [he2]
      exact List.mem_append_left _ he)
    (by
      intro c hc e he
      rw [he2] at he
      rcases List.mem_append.mp he with hnew | hold
      · refine Or.inr ?_
        have h1 := (newEdges_mem _ _ _ e hnew).2
        have h2 := hcache c hc
        omega
      · exact Or.inl ⟨hendLt _ (hedge e hold).2.1, hendLt _ (hedge e hold).2.2⟩)
  refine ⟨r1, r2, r3, ?_, remove_startid _, remove_goalid _⟩
  rw [remove_parent, hp2]
  simp only [hsid, hgid]
  rw [List.map_set]
  have hfv : (if ((st.nextNodeId : Int)) = sid ∨ ((st.nextNodeId : Int)) = gid
      then (-1 : Int) else ((st.nextNodeId : Int))) = -1 := by
    rcases hids with ⟨rfl, h2⟩ | ⟨h1, rfl⟩ <;> simp
  rw [hfv, map_id_of_mem _ _ (by
      intro v hv
      obtain ⟨hlb, hub⟩ := hpar v hv
      split <;> omega),
    set_getD_neg_one _ _ hp]

lemma remove_two_fresh (st st2 : ACA.AbsState) (start goal : Nat)
    (sm gm : List Nat)
    (hst2 : st2 =
      { nodes := (st.nextNodeId + 1) :: st.nextNodeId :: st.nodes
        edges := ACA.newEdges (st.nextEdgeId + sm.length) (st.nextNodeId + 1) gm
          ++ (ACA.newEdges st.nextEdgeId st.nextNodeId sm ++ st.edges)
        cache := (ACA.newEdges (st.nextEdgeId + sm.length) (st.nextNodeId + 1) gm).map
            (fun e => e.eid)
          ++ ((ACA.newEdges st.nextEdgeId st.nextNodeId sm).map (fun e => e.eid)
            ++ st.cache)
        parent := (st.parent.set start (st.nextNodeId : Int)).set goal
          ((st.nextNodeId + 1 : Nat) : Int)
        startid := (st.nextNodeId : Int)
        goalid := ((st.nextNodeId + 1 : Nat) : Int)
        nextNodeId := st.nextNodeId + 1 + 1
        nextEdgeId := st.nextEdgeId + sm.length + gm.length })
    (hnode : ∀ n ∈ st.nodes, n < st.nextNodeId)
    (hedge : ∀ e ∈ st.edges,
      e.eid < st.nextEdgeId ∧ e.src < st.nextNodeId ∧ e.dst < st.nextNodeId)
    (hcache : ∀ c ∈ st.cache, c < st.nextEdgeId)
    (hpar : ∀ v ∈ st.parent, -1 ≤ v ∧ v < (st.nextNodeId : Int))
    (hstart : st.parent.getD start (-1) = -1)
    (hgoal : st.parent.getD goal (-1) = -1) :
    (ACA.removeStartAndGoal st2).nodes = st.nodes
    ∧ (ACA.removeStartAndGoal st2).edges = st.edges
    ∧ (ACA.removeStartAndGoal st2).cache = st.cache
    ∧ (ACA.removeStartAndGoal st2).parent = st.parent
    ∧ (ACA.removeStartAndGoal st2).startid = -1
    ∧ (ACA.removeStartAndGoal st2).goalid = -1 := by
  have hsid : st2.startid = (st.nextNodeId : Int) := by rw [hst2]
  have hgid : st2.goalid = ((st.nextNodeId + 1 : Nat) : Int) := by rw [hst2]
  have hn2 : st2.nodes = [st.nextNodeId + 1, st.nextNodeId] ++ st.nodes := by
    rw [hst2]
    rfl
  have he2 : st2.edges
      = (ACA.newEdges (st.nextEdgeId + sm.length) (st.nextNodeId + 1) gm
          ++ ACA.newEdges st.nextEdgeId st.nextNodeId sm) ++ st.edges := by
    rw [hst2, List.append_assoc]
  have hc2 : st2.cache
      = ((ACA.newEdges (st.nextEdgeId + sm.length) (st.nextNodeId + 1) gm).map
            (fun e => e.eid)
          ++ (ACA.newEdges st.nextEdgeId st.nextNodeId sm).map (fun e => e.eid))
        ++ st.cache := by
    rw [hst2, List.append_assoc]
  have hp2 : st2.parent
      = (st.parent.set start (st.nextNodeId : Int)).set goal
          ((st.nextNodeId + 1 : Nat) : Int) := by
    rw [hst2]
  have hend0 : ACA.isEndpointId st2 st.nextNodeId = true := by
    simp [ACA.isEndpointId, hsid, hgid]
  have hend1 : ACA.isEndpointId st2 (st.nextNodeId + 1) = true := by
    simp [ACA.isEndpointId, hsid, hgid]
  have hendLt : ∀ n, n < st.nextNodeId → ACA.isEndpointId st2 n = false := by
    intro n hn
    have e1 : ¬((n : Int) = (st.nextNodeId : Int)) := by omega
    have e2 : ¬((n : Int) = ((st.nextNodeId + 1 : Nat) : Int)) := by omega
    simp only [ACA.isEndpointId, hsid, hgid]
    rw [decide_eq_false e1, decide_eq_false e2]
    rfl
  obtain ⟨r1, r2, r3⟩ := remove_restores_lists st2
    [st.nextNodeId + 1, st.nextNodeId]
    (ACA.newEdges (st.nextEdgeId + sm.length) (st.nextNodeId + 1) gm
      ++ ACA.newEdges st.nextEdgeId st.nextNodeId sm)
    ((ACA.newEdges (st.nextEdgeId + sm.length) (st.nextNodeId + 1) gm).map
        (fun e => e.eid)
      ++ (ACA.newEdges st.nextEdgeId st.nextNodeId sm).map (fun e => e.eid))
    st.nodes st.edges st.cache hn2 he2 hc2
    (by
      intro n hn
      rcases List.mem_cons.mp hn with rfl | hn
      · exact hend1
      · rcases List.mem_cons.mp hn with rfl | hn
        · exact hend0
        · simp at hn)
    (fun n hn => hendLt n (hnode n hn))
    (by
      intro e he
      rcases List.mem_append.mp he with h | h
      · rw [(newEdges_mem _ _ _ e h).1]; exact hend1
      · rw [(newEdges_mem _ _ _ e h).1]; exact hend0)
    (fun e he => ⟨hendLt _ (hedge e he).2.1, hendLt _ (hedge e he).2.2⟩)
    (by
      intro c hc
      rcases List.mem_append.mp hc with h | h
      · rw [List.mem_map] at h
        obtain ⟨e, he, rfl⟩ := h
        refine ⟨e, ?_, Or.inl (by rw [(newEdges_mem _ _ _ e he).1]; exact hend1), rfl⟩
        rw [he2]
        exact List.mem_append_left _ (List.mem_append_left _ he)
      · rw [List.mem_map] at h
        obtain ⟨e, he, rfl⟩ := h
        refine ⟨e, ?_, Or.inl (by rw [(newEdges_mem _ _ _ e he).1]; exact hend0), rfl⟩
        rw [he2]
        exact List.mem_append_left _ (List.mem_append_right _ he))
    (by
      intro c hc e he
      rw [he2] at he
      rcases List.mem_append.mp he with hnew | hold
      · rcases List.mem_append.mp hnew with h1 | h1
        · refine Or.inr ?_
          have hb := (newEdges_mem _ _ _ e h1).2
          have hcb := hcache c hc
          omega
        · refine Or.inr ?_
          have hb := (newEdges_mem _ _ _ e h1).2
          have hcb := hcache c hc
          omega
      · exact Or.inl ⟨hendLt _ (hedge e hold).2.1, hendLt _ (hedge e hold).2.2⟩)
  refine ⟨r1, r2, r3, ?_, remove_startid _, remove_goalid _⟩
  rw [remove_parent, hp2]
  simp only [hsid, hgid]
  rw [List.map_set, List.map_set]
  have hfv0 : (if ((st.nextNodeId : Int)) = (st.nextNodeId : Int)
        ∨ ((st.nextNodeId : Int)) = ((st.nextNodeId + 1 : Nat) : Int)
      then (-1 : Int) else ((st.nextNodeId : Int))) = -1 := if_pos (Or.inl rfl)
  have hfv1 : (if (((st.nextNodeId + 1 : Nat) : Int)) = (st.nextNodeId : Int)
        ∨ (((st.nextNodeId + 1 : Nat) : Int)) = ((st.nextNodeId + 1 : Nat) : Int)
      then (-1 : Int) else (((st.nextNodeId + 1 : Nat) : Int))) = -1 :=
    if_pos (Or.inr rfl)
  rw [hfv0, hfv1, map_id_of_mem _ _ (by
      intro v hv
      obtain ⟨hlb, hub⟩ := hpar v hv
      split <;> omega),
    set_getD_neg_one st.parent start hstart,
    set_getD_neg_one st.parent goal hgoal]

lemma remove_trivial (st : ACA.AbsState) (hs0 : st.startid = -1)
    (hg0 : st.goalid = -1) :
    (ACA.removeStartAndGoal st).nodes = st.nodes
    ∧ (ACA.removeStartAndGoal st).edges = st.edges
    ∧ (ACA.removeStartAndGoal st).cache = st.cache
    ∧ (ACA.removeStartAndGoal st).parent = st.parent
    ∧ (ACA.removeStartAndGoal st).startid = -1
    ∧ (ACA.removeStartAndGoal st).goalid = -1 := by
  have hend : ∀ n : Nat, ACA.isEndpointId st n = false := by
    intro n
    have e2 : ¬((n : Int) = -1) := by omega
    simp [ACA.isEndpointId, hs0, hg0, e2]
  obtain ⟨r1, r2, r3⟩ := remove_restores_lists st [] [] []
    st.nodes st.edges st.cache rfl rfl rfl
    (by simp) (fun n _ => hend n) (by simp)
    (fun e _ => ⟨hend _, hend _⟩) (by simp)
    (fun c _ e _ => Or.inl ⟨hend _, hend _⟩)
  refine ⟨r1, r2, r3, ?_, remove_startid _, remove_goalid _⟩
  rw [remove_parent]
  simp only [hs0, hg0]
  apply map_id_of_mem
  intro v hv
  split <;> omega

/-- C3: for every well-formed abstract state, after
`insertStartAndGoalNodesIntoAbstractGraph` followed by
`removeStartAndGoalNodesFromAbstractGraph`, the abstract node list, the
abstract edge list, the path cache, and every ground node's `kParent`
label are identical to their pre-insert values, and `startid`/`goalid`
are restored to `-1` — for any choice of endpoints and any sets of
cluster-mates the insertion connected them to. -/
theorem insertRemove_restores (st : ACA.AbsState) (start goal : Nat)
    (sm gm : List Nat) (hInv : ACA.Inv st) :
    (ACA.removeStartAndGoal (ACA.insertStartAndGoal st start goal sm gm)).nodes
        = st.nodes
    ∧ (ACA.removeStartAndGoal (ACA.insertStartAndGoal st start goal sm gm)).edges
        = st.edges
    ∧ (ACA.removeStartAndGoal (ACA.insertStartAndGoal st start goal sm gm)).cache
        = st.cache
    ∧ (ACA.removeStartAndGoal (ACA.insertStartAndGoal st start goal sm gm)).parent
        = st.parent
    ∧ (ACA.removeStartAndGoal (ACA.insertStartAndGoal st start goal sm gm)).startid
        = -1
    ∧ (ACA.removeStartAndGoal (ACA.insertStartAndGoal st start goal sm gm)).goalid
        = -1 := by
  obtain ⟨hs0, hg0, hnode, hedge, hcache, hpar⟩ := hInv
  unfold ACA.insertStartAndGoal
  by_cases c1 : 0 ≤ st.parent.getD start (-1)
  · rw [insertEndpoint_reuse st start sm true c1]
    by_cases c2 : 0 ≤ st.parent.getD goal (-1)
    · rw [insertEndpoint_reuse st goal gm false c2]
      exact remove_trivial st hs0 hg0
    · rw [insertEndpoint_fresh_goal st goal gm c2]
      exact remove_one_fresh st _ goal gm st.startid (st.nextNodeId : Int) rfl
        (Or.inr ⟨hs0, rfl⟩) hnode hedge hcache hpar
        (getD_eq_neg_one st.parent goal (fun v hv => (hpar v hv).1) c2)
  · by_cases c2 : 0 ≤ (st.parent.set start (st.nextNodeId : Int)).getD goal (-1)
    · rw [insertEndpoint_fresh_start st start sm c1,
        insertEndpoint_reuse _ goal gm false c2]
      exact remove_one_fresh st _ start sm (st.nextNodeId : Int) st.goalid rfl
        (Or.inl ⟨rfl, hg0⟩) hnode hedge hcache hpar
        (getD_eq_neg_one st.parent start (fun v hv => (hpar v hv).1) c1)
    · rw [insertEndpoint_fresh_start st start sm c1,
        insertEndpoint_fresh_goal _ goal gm c2]
      have hstart : st.parent.getD start (-1) = -1 :=
        getD_eq_neg_one st.parent start (fun v hv => (hpar v hv).1) c1
      have hsetlb : ∀ v ∈ st.parent.set start (st.nextNodeId : Int), -1 ≤ v := by
        intro v hv
        rcases List.mem_or_eq_of_mem_set hv with h | rfl
        · exact (hpar v h).1
        · omega
      have hgset : (st.parent.set start (st.nextNodeId : Int)).getD goal (-1) = -1 :=
        getD_eq_neg_one _ goal hsetlb c2
      have hgoal : st.parent.getD goal (-1) = -1 :=
        getD_of_set_getD st.parent start goal (st.nextNodeId : Int) (by omega) hgset
      exact remove_two_fresh st _ start goal sm gm rfl hnode hedge hcache hpar
        hstart hgoal

/-- Witness for C3 at a concrete state: two persistent abstract nodes, one
abstract edge with its cached path, four ground nodes of which two are
materialized; inserting fresh endpoints 2 and 3 with one cluster-mate each
and removing them restores every component. -/
theorem insertRemove_restores_witness :
    ACA.Inv ⟨[0, 1], [⟨0, 0, 1⟩], [0], [0, 1, -1, -1], -1, -1, 2, 1⟩
    ∧ (ACA.removeStartAndGoal (ACA.insertStartAndGoal
        ⟨[0, 1], [⟨0, 0, 1⟩], [0], [0, 1, -1, -1], -1, -1, 2, 1⟩ 2 3 [0] [1])).nodes
      = [0, 1]
    ∧ (ACA.removeStartAndGoal (ACA.insertStartAndGoal
        ⟨[0, 1], [⟨0, 0, 1⟩], [0], [0, 1, -1, -1], -1, -1, 2, 1⟩ 2 3 [0] [1])).edges
      = [⟨0, 0, 1⟩]
    ∧ (ACA.removeStartAndGoal (ACA.insertStartAndGoal
        ⟨[0, 1], [⟨0, 0, 1⟩], [0], [0, 1, -1, -1], -1, -1, 2, 1⟩ 2 3 [0] [1])).cache
      = [0]
    ∧ (ACA.removeStartAndGoal (ACA.insertStartAndGoal
        ⟨[0, 1], [⟨0, 0, 1⟩], [0], [0, 1, -1, -1], -1, -1, 2, 1⟩ 2 3 [0] [1])).parent
      = [0, 1, -1, -1]
    ∧ (ACA.removeStartAndGoal (ACA.insertStartAndGoal
        ⟨[0, 1], [⟨0, 0, 1⟩], [0], [0, 1, -1, -1], -1, -1, 2, 1⟩ 2 3 [0] [1])).startid
      = -1
    ∧ (ACA.removeStartAndGoal (ACA.insertStartAndGoal
        ⟨[0, 1], [⟨0, 0, 1⟩], [0], [0, 1, -1, -1], -1, -1, 2, 1⟩ 2 3 [0] [1])).goalid
      = -1 :=
  ⟨by decide,
    (insertRemove_restores _ 2 3 [0] [1] (by decide)).1,
    (insertRemove_restores _ 2 3 [0] [1] (by decide)).2.1,
    (insertRemove_restores _ 2 3 [0] [1] (by decide)).2.2.1,
    (insertRemove_restores _ 2 3 [0] [1] (by decide)).2.2.2.1,
    (insertRemove_restores _ 2 3 [0] [1] (by decide)).2.2.2.2.1,
    (insertRemove_restores _ 2 3 [0] [1] (by decide)).2.2.2.2.2⟩
